import Mathlib

/-!
Verification of the `fcp` parallel copy engine (`src/lib.rs`).

The engine is embedded shallowly:

* Filesystem paths become `FPath` (an absolute/relative flag plus a list of
  already-normalized components, mirroring `std::path::Path` in the ways the
  engine uses it: `file_name`, `join`, `ancestors`, `is_relative`,
  `strip_prefix`).
* The filesystem itself is external to the engine: `src/filesystem.rs` is
  declared by `lib.rs` (`pub mod filesystem`) but its body is not in the
  repository snapshot, so — per the spec's §4.1 Filesystem Abstraction — the
  syscall layer is modelled as an oracle (`Env`) giving each query's result,
  and the responses met while recursing into a directory are modelled as an
  inductive tree (`SrcTree`) of outcomes, one field per fallible primitive
  that `lib.rs` invokes.
* Stderr printing and filesystem mutation are modelled as a `Trace`;
  `process::exit` via `fatal` is modelled by the `Outcome.fatal` constructor.
  Error messages are modelled structurally (`Msg`), one constructor per
  `format!` pattern of `lib.rs`; an error built from joined lines
  (`errors.join("\n")`) is modelled as the `List Msg` of its lines.
-/

/-- A filesystem path: `absolute` mirrors `Path::is_absolute`, `components`
the normal components in order.  The model assumes components are already
normalized (no `.`/`..`), which is how every path the engine builds is used. -/
structure FPath where
  absolute : Bool
  components : List String
deriving DecidableEq

/-- `Path::is_relative`. -/
def FPath.isRelative (p : FPath) : Bool := !p.absolute

/-- `Path::file_name`: the final normal component, `None` when there is none
(e.g. a root path). -/
def FPath.fileName (p : FPath) : Option String := p.components.getLast?

/-- `Path::join` with a single-component file name (as used with names coming
from `file_name` / directory entries, which contain no separator). -/
def FPath.joinName (p : FPath) (n : String) : FPath :=
  ⟨p.absolute, p.components ++ [n]⟩

/-- `Path::join` with a general path: an absolute right operand replaces. -/
def FPath.join (p q : FPath) : FPath :=
  if q.absolute then q else ⟨p.absolute, p.components ++ q.components⟩

/-- `Path::ancestors`: the path itself, then each parent, ending with the
root (`""` for a relative path, `/` for an absolute one). -/
def FPath.ancestors (p : FPath) : List FPath :=
  (List.range (p.components.length + 1)).map
    (fun k => ⟨p.absolute, p.components.take (p.components.length - k)⟩)

/-- `ancestor.strip_prefix(prefix).unwrap_or(ancestor)` as used for display in
the self-copy error message. -/
def FPath.stripPrefixOr (p pre : FPath) : FPath :=
  if pre.absolute = p.absolute ∧ pre.components.isPrefixOf p.components then
    ⟨false, p.components.drop pre.components.length⟩
  else p

/-- The empty relative path, `Path::new("")`. -/
def emptyFPath : FPath := ⟨false, []⟩

/-- The fields of `std::fs::Metadata` that `lib.rs` reads: `dev()`, `ino()`,
`permissions().mode()`, `is_dir()`. -/
structure Meta where
  dev : Nat
  ino : Nat
  mode : Nat
  isDir : Bool
deriving DecidableEq

/-- One line of error output, one constructor per `format!` pattern in
`lib.rs`; `os` is the displayed text of an underlying I/O error coming out of
the filesystem layer. -/
inductive Msg where
  | os (text : String)
  | socketUnsupported (source : FPath)
  | selfCopy (source ancestor : FPath)
  | noFileName (source : FPath)
  | collision (group : List FPath)
  | notADirectory (dest : FPath)
  | overwriteSelf (source dest : FPath)
  | tooFewArgs
deriving DecidableEq

/-- A filesystem mutation performed by the engine (successful creation /
write primitives, in execution order). -/
inductive Act where
  | copyRegular (src dst : FPath)
  | mkSymlink (target dst : FPath)
  | mkFifo (dst : FPath) (mode : Nat)
  | mkDir (dst : FPath) (mode : Nat)
  | createDevDest (dst : FPath) (mode : Nat)
  | copyBytes (src dst : FPath)
deriving DecidableEq

/-- Observable behaviour of a run: stderr lines (`out`, in print order) and
filesystem mutations (`acts`, in execution order). -/
structure Trace where
  out : List Msg
  acts : List Act
deriving DecidableEq

def Trace.nil : Trace := ⟨[], []⟩

def Trace.line (m : Msg) : Trace := ⟨[m], []⟩

def Trace.ofLines (ms : List Msg) : Trace := ⟨ms, []⟩

def Trace.ofAct (a : Act) : Trace := ⟨[], [a]⟩

def Trace.append (t u : Trace) : Trace := ⟨t.out ++ u.out, t.acts ++ u.acts⟩

/-- The result of one whole invocation: `fatal` models `fatal(..)`
(print to stderr, `process::exit(1)`) — every `fatal` call site in `lib.rs`
is reached before any copy work, so it carries only its message lines —
and `done flag tr` models a normal return of the aggregate boolean. -/
inductive Outcome where
  | fatal (errs : List Msg)
  | done (flag : Bool) (tr : Trace)
deriving DecidableEq

/-- Exit status of the process (`main.rs`: `process::exit(fcp(&args) as i32)`;
`fatal` exits with 1). -/
def exitCode : Outcome → Nat
  | .fatal _ => 1
  | .done flag _ => if flag then 1 else 0

/-! ## `file_names` (the Name-Collision Checker, `lib.rs` 147-183) -/

/-- The `sources.iter().map(..file_name().ok_or_else(..)).collect::<Result<Vec<_>>>()`
step: short-circuits at the first source without a file name. -/
def mapNames : List FPath → Except (List Msg) (List String)
  | [] => .ok []
  | s :: rest =>
    match s.fileName with
    | none => .error [Msg.noFileName s]
    | some n =>
      match mapNames rest with
      | .error e => .error e
      | .ok ns => .ok (n :: ns)

/-- `file_names` (`lib.rs` 147-183).  The `HashMap` grouping is modelled by
grouping the sources on each distinct extracted name (`or_default().push`
keeps source order within a group; the hash map's arbitrary value-iteration
order is fixed here to the `dedup` order, which no caller depends on). -/
def fileNames (sources : List FPath) : Except (List Msg) (List String) :=
  match mapNames sources with
  | .error e => .error e
  | .ok names =>
    let errors := names.dedup.filterMap (fun n =>
      let group := sources.filter (fun s => s.fileName = some n)
      if 1 < group.length then some (Msg.collision group) else none)
    if errors.isEmpty then .ok names else .error errors

/-! ## The File Dispatcher and Directory Replicator (`copy_file` /
`copy_directory`, `lib.rs` 36-86)

`SrcTree` is the oracle for one source subtree: for each fallible filesystem
primitive that `copy_file`/`copy_directory` invokes on that subtree it records
the result the filesystem would return.  A directory's `read_dir` iteration is
an `EntryList`: each yielded item is either an entry read failure
(`consFail`), an entry whose `entry_file_type` failed (`consType`), or an
entry with its type and recursive behaviour (`consOk`). -/

mutual

inductive SrcTree where
  | regular (copyRes : Except Msg Unit)
  | directory (statRes : Except Msg Nat) (createRes : Except Msg Unit)
      (listRes : Except Msg Unit) (entries : EntryList)
  | symlink (readLinkRes : Except Msg FPath) (createRes : Except Msg Unit)
  | fifo (statRes : Except Msg Nat) (createRes : Except Msg Unit)
  | socket
  | device (statRes : Except Msg Nat) (openRes : Except Msg Unit)
      (createRes : Except Msg Unit) (ioCopyRes : Except Msg Unit)

inductive EntryList where
  | nil
  | consFail (e : Msg) (rest : EntryList)
  | consType (name : String) (e : Msg) (rest : EntryList)
  | consOk (name : String) (t : SrcTree) (rest : EntryList)

end

/-- The entry errors printed by the `for entry in fs::read_dir(source)?` loop
(`lib.rs` 70-78), in iteration order. -/
def EntryList.failLines : EntryList → List Msg
  | .nil => []
  | .consFail e rest => e :: rest.failLines
  | .consType _ _ rest => rest.failLines
  | .consOk _ _ rest => rest.failLines

/-- The `has_err` flag set by that same loop. -/
def EntryList.hasFail : EntryList → Bool
  | .nil => false
  | .consFail _ _ => true
  | .consType _ _ rest => rest.hasFail
  | .consOk _ _ rest => rest.hasFail

/-- `__copy_file(..).unwrap_or_else(|err| { eprintln!(..); true })`
(`lib.rs` 61-64): print a propagated error and convert to the boolean. -/
def printWrap : Except Msg Bool × Trace → Bool × Trace
  | (.ok b, tr) => (b, tr)
  | (.error e, tr) => (true, tr.append (Trace.line e))

mutual

/-- `__copy_file` (`lib.rs` 37-59) after its `source_type?` has succeeded:
one branch per `FileType`, each fallible primitive reading its result from
the oracle tree.  The `Directory` branch is `copy_directory` (`lib.rs`
67-86) inlined in the same order as the source: `symlink_metadata?`,
`create_dir?`, `read_dir?`, the entry-collection loop, then the parallel
map over the collected entries reduced with `BitOr` from identity
`has_err` (rayon may use the identity in several splits; since `||` is
idempotent, associative and commutative that equals `has_err || ⋁ children`,
and the model fixes the sequential order for the trace). -/
def copyTree (source : FPath) (t : SrcTree) (dest : FPath) :
    Except Msg Bool × Trace :=
  match t with
  | .regular copyRes =>
    match copyRes with
    | .error e => (.error e, Trace.nil)
    | .ok _ => (.ok false, Trace.ofAct (.copyRegular source dest))
  | .directory statRes createRes listRes entries =>
    match statRes with
    | .error e => (.error e, Trace.nil)
    | .ok mode =>
      match createRes with
      | .error e => (.error e, Trace.nil)
      | .ok _ =>
        let created := Trace.ofAct (.mkDir dest mode)
        match listRes with
        | .error e => (.error e, created)
        | .ok _ =>
          let r := copyEntries source dest entries
          (.ok (entries.hasFail || r.1),
            (created.append (Trace.ofLines entries.failLines)).append r.2)
  | .symlink readLinkRes createRes =>
    match readLinkRes with
    | .error e => (.error e, Trace.nil)
    | .ok target =>
      match createRes with
      | .error e => (.error e, Trace.nil)
      | .ok _ => (.ok false, Trace.ofAct (.mkSymlink target dest))
  | .fifo statRes createRes =>
    match statRes with
    | .error e => (.error e, Trace.nil)
    | .ok mode =>
      match createRes with
      | .error e => (.error e, Trace.nil)
      | .ok _ => (.ok false, Trace.ofAct (.mkFifo dest mode))
  | .socket => (.error (Msg.socketUnsupported source), Trace.nil)
  | .device statRes openRes createRes ioCopyRes =>
    match statRes with
    | .error e => (.error e, Trace.nil)
    | .ok mode =>
      match openRes with
      | .error e => (.error e, Trace.nil)
      | .ok _ =>
        match createRes with
        | .error e => (.error e, Trace.nil)
        | .ok _ =>
          let created := Trace.ofAct (.createDevDest dest mode)
          match ioCopyRes with
          | .error e => (.error e, created)
          | .ok _ => (.ok false, created.append (Trace.ofAct (.copyBytes source dest)))

/-- The parallel `map(copy_file).reduce(..)` over the entries collected by
`copy_directory` (`lib.rs` 80-85): `consFail` items were not pushed into the
vector, the rest become `copy_file(source.join(name), ftype, dest.join(name))`
calls whose booleans are OR-reduced and whose traces concatenate. -/
def copyEntries (source dest : FPath) : EntryList → Bool × Trace
  | .nil => (false, Trace.nil)
  | .consFail _ rest => copyEntries source dest rest
  | .consType _name e rest =>
    let r := (true, Trace.line e)
    let rr := copyEntries source dest rest
    (r.1 || rr.1, r.2.append rr.2)
  | .consOk name t rest =>
    let r := printWrap (copyTree (source.joinName name) t (dest.joinName name))
    let rr := copyEntries source dest rest
    (r.1 || rr.1, r.2.append rr.2)

end

/-- `copy_file` (`lib.rs` 36-65): a failed `source_type?` is printed and
counts as an error; otherwise dispatch on the type and print any propagated
error. -/
def copyFile (source : FPath) (stype : Except Msg SrcTree) (dest : FPath) :
    Bool × Trace :=
  match stype with
  | .error e => (true, Trace.line e)
  | .ok t => printWrap (copyTree source t dest)

/-! ## The Self-Copy Guard (`reject_self_copies`, `lib.rs` 88-145) and the
Copy Orchestrator (`copy_into` / `copy_single` / `fcp`, `lib.rs` 186-229) -/

/-- The filesystem-query oracle for the orchestration layer: the results the
missing `src/filesystem.rs` wrappers (per spec §4.1) and `env::current_dir`
would return on each path at this invocation. `tree` is the result of
`fs::file_type(source)` (following symlinks) on a top-level source, together
with the behaviour of the subsequent traversal of that source. -/
structure Env where
  currentDir : Except String FPath
  metadata : FPath → Except String Meta
  symlinkMetadata : FPath → Except String Meta
  tree : FPath → Except Msg SrcTree

/-- `unique_id` (`lib.rs` 106-108): device and inode number combined. -/
def uniqueId (m : Meta) : Nat × Nat := (m.dev, m.ino)

/-- The error lines the inner `for (source, source_id)` loop (`lib.rs`
127-137) pushes for one ancestor whose identity is `id`: a `selfCopy` line
per identity-equal source, an `os` line per source whose stat failed. -/
def ancLines (pre : FPath) (srcPairs : List (FPath × Except String (Nat × Nat)))
    (ancestor : FPath) (id : Nat × Nat) : List Msg :=
  srcPairs.filterMap (fun sp =>
    match sp.2 with
    | .ok sid => if sid = id then some (Msg.selfCopy sp.1 (ancestor.stripPrefixOr pre)) else none
    | .error e => some (Msg.os e))

/-- The outer `for (ancestor, id) in dest.ancestors().zip(ancestor_ids)` loop
(`lib.rs` 125-138), carrying the accumulated `errors` vector.  `let id = id?;`
returns that ancestor's stat error immediately, discarding the accumulator. -/
def guardLoop (pre : FPath) (srcPairs : List (FPath × Except String (Nat × Nat))) :
    List (FPath × Except String (Nat × Nat)) → List Msg → Except (List Msg) (List Msg)
  | [], acc => .ok acc
  | (ancestor, idRes) :: rest, acc =>
    match idRes with
    | .error e => .error [Msg.os e]
    | .ok id => guardLoop pre srcPairs rest (acc ++ ancLines pre srcPairs ancestor id)

/-- `reject_self_copies` (`lib.rs` 88-145): absolutize a relative `dest`
against the current directory, stat every source without following symlinks,
then walk the ancestors of `dest` collecting violations. -/
def rejectSelfCopies (env : Env) (sources : List FPath) (dest : FPath) :
    Except (List Msg) Unit :=
  match env.currentDir with
  | .error e => .error [Msg.os e]
  | .ok currentDir =>
    let pd :=
      if dest.isRelative then (currentDir, currentDir.join dest)
      else (emptyFPath, dest)
    let srcPairs := sources.map (fun s => (s, (env.symlinkMetadata s).map uniqueId))
    let ancPairs := pd.2.ancestors.map (fun a => (a, (env.metadata a).map uniqueId))
    match guardLoop pd.1 srcPairs ancPairs [] with
    | .error e => .error e
    | .ok errs => if errs.isEmpty then .ok () else .error errs

/-- `copy_into` (`lib.rs` 186-204): fatal when `dest` cannot be statted, is
not a directory, when the Self-Copy Guard rejects, or when `file_names`
rejects; otherwise the parallel `map(copy_file).reduce(|| false, BitOr)` over
`sources.zip(file_names)`, modelled sequentially (OR is associative and
commutative; the trace fixes the sequential order). -/
def copyInto (env : Env) (sources : List FPath) (dest : FPath) : Outcome :=
  match env.metadata dest with
  | .error e => .fatal [Msg.os e]
  | .ok m =>
    if !m.isDir then .fatal [Msg.notADirectory dest]
    else
      match rejectSelfCopies env sources dest with
      | .error errs => .fatal errs
      | .ok _ =>
        match fileNames sources with
        | .error errs => .fatal errs
        | .ok names =>
          let results := (sources.zip names).map
            (fun sn => copyFile sn.1 (env.tree sn.1) (dest.joinName sn.2))
          .done (results.foldl (fun acc r => acc || r.1) false)
            (results.foldl (fun acc r => acc.append r.2) Trace.nil)

/-- `copy_single` (`lib.rs` 209-220): stat the source (fatal on failure);
if `dest` stats as a directory, fan in with a singleton source list; else if
`dest`'s no-follow stat succeeds and its *inode number alone* equals the
source's, fail fatally with the overwrite-with-itself error (the device
number is not compared here, unlike `unique_id`); else dispatch `copy_file`
directly. -/
def copySingle (env : Env) (source dest : FPath) : Outcome :=
  match env.symlinkMetadata source with
  | .error e => .fatal [Msg.os e]
  | .ok sourceMetadata =>
    if (match env.metadata dest with | .ok m => m.isDir | .error _ => false) then
      copyInto env [source] dest
    else if (match env.symlinkMetadata dest with
             | .ok m => sourceMetadata.ino == m.ino
             | .error _ => false) then
      .fatal [Msg.overwriteSelf source dest]
    else
      let r := copyFile source (env.tree source) dest
      .done r.1 r.2

/-- `fcp` (`lib.rs` 222-229): argument-shape dispatch. -/
def fcpRun (env : Env) (args : List FPath) : Outcome :=
  match args with
  | [] => .fatal [Msg.tooFewArgs]
  | [_] => .fatal [Msg.tooFewArgs]
  | [source, dest] => copySingle env source dest
  | a :: b :: c :: rest =>
    copyInto env ((a :: b :: c :: rest).dropLast)
      ((a :: b :: c :: rest).getLast (List.cons_ne_nil a (b :: c :: rest)))

/-! ## A state-transformer slice for single regular-file copies

The oracle model above fixes all syscall answers per invocation; to state
idempotence of `A → B` we additionally need the second run's answers to be
derived from the filesystem state the first run produced.  This slice gives
concrete state-derived answers for the regular-file path through
`copy_single`. -/

/-- The kind of a filesystem object in the state model. -/
inductive FileKind where
  | regular
  | directory
  | fifo
deriving DecidableEq

/-- A filesystem object: identity, permission bits, kind and byte content. -/
structure FileObj where
  dev : Nat
  ino : Nat
  mode : Nat
  kind : FileKind
  content : List Nat
deriving DecidableEq

/-- A filesystem state: which object, if any, each path names.  (Symlinks are
outside this slice, so following and non-following queries agree.) -/
def FsState := FPath → Option FileObj

def noEntryText : String := "no such file or directory"

def nonRegularText : String := "not a regular file in the state-model slice"

/-- `Modelled from the spec:` §4.1, a `stat`-class query against the state
(`src/filesystem.rs` is not in the snapshot).  Fails iff the path names
nothing. -/
def stateMetadata (st : FsState) (p : FPath) : Except String Meta :=
  match st p with
  | none => .error noEntryText
  | some o => .ok ⟨o.dev, o.ino, o.mode, o.kind = FileKind.directory⟩

/-- `Modelled from the spec:` §4.1, `type_of` restricted to this slice: a
regular file copies byte-for-byte and always succeeds; other kinds are not
produced by the claims that use this slice. -/
def stateTree (st : FsState) (p : FPath) : Except Msg SrcTree :=
  match st p with
  | none => .error (Msg.os noEntryText)
  | some o =>
    match o.kind with
    | FileKind.regular => .ok (SrcTree.regular (.ok ()))
    | _ => .error (Msg.os nonRegularText)

/-- The oracle view of a filesystem state. -/
def envOfState (st : FsState) : Env :=
  ⟨.ok ⟨true, []⟩, stateMetadata st, stateMetadata st, stateTree st⟩

/-- `Modelled from the spec:` §4.1 `copy_regular` — byte-for-byte content and
permission-bits copy, overwriting an existing destination (which keeps its
identity); creating a fresh destination allocates it on the source's device
(the fresh inode number is abstracted as 0, unused by the claims).  The other
action kinds do not occur in this slice and leave the state unchanged. -/
def applyAct (st : FsState) : Act → FsState
  | .copyRegular src dst =>
    fun p =>
      if p = dst then
        match st src with
        | none => st p
        | some a =>
          match st dst with
          | some b => some ⟨b.dev, b.ino, a.mode, FileKind.regular, a.content⟩
          | none => some ⟨a.dev, 0, a.mode, FileKind.regular, a.content⟩
      else st p
  | _ => st

/-- Apply a run's actions in execution order. -/
def applyActs (st : FsState) (acts : List Act) : FsState :=
  acts.foldl applyAct st

/-- The invariant relating a dispatcher result to its stderr trace: an `ok b`
result has printed an error iff `b`, a propagated `error` has printed
nothing yet (every `?` in `__copy_file`/`copy_directory` fires before any
print of that invocation). -/
def flagSpec (r : Except Msg Bool × Trace) : Prop :=
  (∀ b, r.1 = .ok b → (b = true ↔ r.2.out ≠ [])) ∧
  (∀ e, r.1 = .error e → r.2.out = [])

/-- Whether an `Except` is `ok` (used to state that a query succeeded). -/
def exOk {ε α : Type _} : Except ε α → Bool
  | .ok _ => true
  | .error _ => false

/-- The full collection the outer loop accumulates when no ancestor stat
fails: the per-ancestor `ancLines`, concatenated in ancestor order. -/
def okLines (pre : FPath)
    (srcPairs : List (FPath × Except String (Nat × Nat))) :
    List (FPath × Except String (Nat × Nat)) → List Msg
  | [] => []
  | (ancestor, idRes) :: rest =>
    (match idRes with
     | .ok id => ancLines pre srcPairs ancestor id
     | .error _ => []) ++ okLines pre srcPairs rest

def sW10 : FPath := ⟨true, ["src10"]⟩

def dW10 : FPath := ⟨true, ["d10"]⟩

def eW10 : String := "stat failed on source"

def envW10 : Env :=
  ⟨.ok ⟨true, []⟩,
   fun _ => .ok ⟨1, 1, 420, true⟩,
   fun p => if p = sW10 then .error eW10 else .ok ⟨1, 2, 420, false⟩,
   fun _ => .error (Msg.os eW10)⟩

/-- Equality of `Except` results is decidable (used by concrete witnesses). -/
instance instDecEqExcept {ε α : Type _} [DecidableEq ε] [DecidableEq α] :
    DecidableEq (Except ε α)
  | Except.ok a, Except.ok b =>
    if h : a = b then isTrue (congrArg Except.ok h)
    else isFalse (fun hc => h (Except.ok.inj hc))
  | Except.error a, Except.error b =>
    if h : a = b then isTrue (congrArg Except.error h)
    else isFalse (fun hc => h (Except.error.inj hc))
  | Except.ok _, Except.error _ => isFalse (fun hc => Except.noConfusion hc)
  | Except.error _, Except.ok _ => isFalse (fun hc => Except.noConfusion hc)

/-! ### Concrete fixtures for the Self-Copy Guard claims -/

def sC4 : FPath := ⟨true, ["s4"]⟩

def dC4 : FPath := ⟨true, ["a4", "b4"]⟩

def eC4 : String := "permission denied on ancestor"

/-- `dest = /a4/b4` whose middle ancestor `/a4` cannot be statted, while the
root `/` can and shares its identity with the source `s4`: a genuine
(source, ancestor) violation exists below the failing ancestor. -/
def envC4 : Env :=
  ⟨.ok ⟨true, []⟩,
   fun p =>
     if p = (⟨true, ["a4"]⟩ : FPath) then .error eC4
     else if p = dC4 then .ok ⟨1, 5, 420, true⟩
     else .ok ⟨1, 1, 420, true⟩,
   fun p => if p = sC4 then .ok ⟨1, 1, 420, true⟩ else .error eC4,
   fun _ => .error (Msg.os eC4)⟩

def s4b : FPath := ⟨true, ["s4b"]⟩

def d4b : FPath := ⟨true, ["d4b"]⟩

/-- All ancestor stats succeed; the source's identity equals the root's. -/
def env4b : Env :=
  ⟨.ok ⟨true, []⟩,
   fun p => if p = d4b then .ok ⟨1, 9, 420, true⟩ else .ok ⟨1, 1, 420, true⟩,
   fun _ => .ok ⟨1, 1, 420, false⟩,
   fun _ => .error (Msg.os eC4)⟩

/-! ### Concrete fixtures for the remaining claims -/

def eStatC1 : String := "stat failed"

def sC1 : FPath := ⟨true, ["mnt", "a1"]⟩

def dC1 : FPath := ⟨true, ["home", "b1"]⟩

/-- Source on device 1, existing non-directory destination on device 2, both
with inode number 42: distinct filesystem identities sharing an inode
number. -/
def envC1 : Env :=
  ⟨.ok ⟨true, []⟩,
   fun p => if p = dC1 then .ok ⟨2, 42, 420, false⟩ else .error eStatC1,
   fun p =>
     if p = sC1 then .ok ⟨1, 42, 420, false⟩
     else if p = dC1 then .ok ⟨2, 42, 420, false⟩
     else .error eStatC1,
   fun _ => .error (Msg.os eStatC1)⟩

def eC2 : String := "not reached"

def shName : String := "shared.txt"

def dir1C2 : FPath := ⟨true, ["dir1"]⟩

def dir2C2 : FPath := ⟨true, ["dir2"]⟩

def destC2 : FPath := ⟨true, ["dest"]⟩

/-- A directory containing one regular child `shared.txt`, all operations
succeeding. -/
def treeC2 : SrcTree :=
  .directory (.ok 493) (.ok ()) (.ok ())
    (.consOk shName (.regular (.ok ())) .nil)

/-- `dir1` and `dir2` both contain `shared.txt`; `dest` is an existing
directory; every query involved succeeds and no identities collide. -/
def envC2 : Env :=
  ⟨.ok ⟨true, []⟩,
   fun p => if p = destC2 then .ok ⟨1, 10, 493, true⟩ else .ok ⟨1, 1, 493, true⟩,
   fun p =>
     if p = dir1C2 then .ok ⟨1, 2, 493, true⟩
     else if p = dir2C2 then .ok ⟨1, 3, 493, true⟩
     else .error eC2,
   fun p =>
     if p = dir1C2 then .ok treeC2
     else if p = dir2C2 then .ok treeC2
     else .error (Msg.os eC2)⟩

def p1W2 : FPath := ⟨true, ["da", "shared.txt"]⟩

def p2W2 : FPath := ⟨true, ["db", "shared.txt"]⟩

def dW2 : FPath := ⟨true, ["destw2"]⟩

/-- Two sources whose final components collide, fanned into an existing
directory; the Self-Copy Guard passes. -/
def envW2 : Env :=
  ⟨.ok ⟨true, []⟩,
   fun p => if p = dW2 then .ok ⟨1, 10, 493, true⟩ else .ok ⟨1, 1, 493, true⟩,
   fun p => if p = p1W2 then .ok ⟨1, 2, 493, false⟩ else .ok ⟨1, 3, 493, false⟩,
   fun _ => .error (Msg.os eC2)⟩

def eC3 : String := "cannot stat source"

def sC3 : FPath := ⟨true, ["s3"]⟩

def dC3 : FPath := ⟨true, ["d3"]⟩

/-- Every stat fails: in particular the source of a single-source copy. -/
def envC3 : Env :=
  ⟨.ok ⟨true, []⟩, fun _ => .error eC3, fun _ => .error eC3,
   fun _ => .error (Msg.os eC3)⟩

def e3wText : String := "dangling symlink source"

def m3w : Msg := Msg.os e3wText

def s3a : FPath := ⟨true, ["xa", "fa"]⟩

def s3b : FPath := ⟨true, ["xb", "fb"]⟩

def d3w : FPath := ⟨true, ["dw3"]⟩

/-- Fan-in whose guards pass; the first source's following `file_type` query
fails (e.g. a dangling symlink) while the second copies fine. -/
def env3w : Env :=
  ⟨.ok ⟨true, []⟩,
   fun p => if p = d3w then .ok ⟨1, 7, 420, true⟩ else .ok ⟨1, 1, 420, true⟩,
   fun p =>
     if p = s3a then .ok ⟨1, 2, 420, false⟩
     else if p = s3b then .ok ⟨1, 3, 420, false⟩
     else .ok ⟨1, 4, 420, false⟩,
   fun p => if p = s3a then .error m3w else .ok (SrcTree.regular (.ok ()))⟩

def rootP7 : FPath := ⟨true, []⟩

def pa7 : FPath := ⟨false, ["d1", "x"]⟩

def pb7 : FPath := ⟨false, ["d2", "x"]⟩

def xName : String := "x"

def eC8 : String := "source stat failure"

def sC8 : FPath := ⟨true, ["s8"]⟩

def dC8 : FPath := ⟨true, ["d8"]⟩

/-- `dest` is an existing directory with two statable ancestors; the source's
no-follow stat fails. -/
def envC8 : Env :=
  ⟨.ok ⟨true, []⟩,
   fun p => if p = dC8 then .ok ⟨1, 7, 420, true⟩ else .ok ⟨1, 1, 420, true⟩,
   fun p => if p = sC8 then .error eC8 else .ok ⟨1, 2, 420, false⟩,
   fun _ => .ok (SrcTree.regular (.ok ()))⟩

def sW8 : FPath := ⟨true, ["sw8"]⟩

def dW8 : FPath := ⟨true, ["dw8"]⟩

/-- An all-successful single-source copy into an existing directory. -/
def envW8 : Env :=
  ⟨.ok ⟨true, []⟩,
   fun p => if p = dW8 then .ok ⟨1, 7, 420, true⟩ else .ok ⟨1, 1, 420, true⟩,
   fun _ => .ok ⟨1, 2, 420, false⟩,
   fun _ => .ok (SrcTree.regular (.ok ()))⟩

def pA9 : FPath := ⟨true, ["a9"]⟩

def pB9 : FPath := ⟨true, ["b9"]⟩

def objA9 : FileObj := ⟨1, 100, 420, FileKind.regular, [1, 2, 3]⟩

def objB9 : FileObj := ⟨1, 200, 384, FileKind.regular, [9]⟩

/-- Two distinct regular files. -/
def st9 : FsState :=
  fun p => if p = pA9 then some objA9 else if p = pB9 then some objB9 else none

/-! ## Helper lemmas: the aggregate flag tracks printed errors -/

theorem EntryList.hasFail_iff : ∀ (es : EntryList),
    es.hasFail = true ↔ es.failLines ≠ []
  | .nil => by simp [hasFail, failLines]
  | .consFail e rest => by simp [hasFail, failLines]
  | .consType n e rest => by
    simpa [hasFail, failLines] using hasFail_iff rest
  | .consOk n t rest => by
    simpa [hasFail, failLines] using hasFail_iff rest

mutual

theorem copyTree_flagSpec : ∀ (source dest : FPath) (t : SrcTree),
    flagSpec (copyTree source t dest)
  | s, d, .regular res => by
    cases res <;> simp [flagSpec, copyTree, Trace.nil, Trace.ofAct]
  | s, d, .symlink r1 r2 => by
    cases r1 <;> cases r2 <;>
      simp [flagSpec, copyTree, Trace.nil, Trace.ofAct]
  | s, d, .fifo r1 r2 => by
    cases r1 <;> cases r2 <;>
      simp [flagSpec, copyTree, Trace.nil, Trace.ofAct]
  | s, d, .socket => by
    simp [flagSpec, copyTree, Trace.nil]
  | s, d, .device r1 r2 r3 r4 => by
    cases r1 <;> cases r2 <;> cases r3 <;> cases r4 <;>
      simp [flagSpec, copyTree, Trace.nil, Trace.ofAct, Trace.append]
  | s, d, .directory st cr lr es => by
    cases st with
    | error e => simp [flagSpec, copyTree, Trace.nil]
    | ok mode =>
      cases cr with
      | error e => simp [flagSpec, copyTree, Trace.nil]
      | ok _ =>
        cases lr with
        | error e => simp [flagSpec, copyTree, Trace.nil, Trace.ofAct]
        | ok _ =>
          have h1 := copyEntries_flagSpec s d es
          have h2 := EntryList.hasFail_iff es
          constructor
          · intro b hb
            simp only [copyTree] at hb ⊢
            injection hb with hb
            subst hb
            simp [Trace.append, Trace.ofAct, Trace.ofLines, h1, h2,
              Bool.or_eq_true]
            tauto
          · intro e he
            simp only [copyTree] at he
            exact absurd he (by simp)

theorem copyEntries_flagSpec : ∀ (source dest : FPath) (es : EntryList),
    (copyEntries source dest es).1 = true ↔ (copyEntries source dest es).2.out ≠ []
  | s, d, .nil => by simp [copyEntries, Trace.nil]
  | s, d, .consFail e rest => copyEntries_flagSpec s d rest
  | s, d, .consType n e rest => by
    simp [copyEntries, Trace.line, Trace.append]
  | s, d, .consOk n t rest => by
    have h1 := copyTree_flagSpec (s.joinName n) (d.joinName n) t
    have h2 := copyEntries_flagSpec s d rest
    simp only [copyEntries]
    cases hr : copyTree (s.joinName n) t (d.joinName n) with
    | mk res tr =>
      rw [hr] at h1
      cases res with
      | ok b =>
        have hb := h1.1 b rfl
        simp [printWrap, Trace.append, Bool.or_eq_true, hb, h2]
        tauto
      | error e =>
        simp [printWrap, Trace.append, Trace.line]

end

/-- C5: for every sub-tree of the copy — every `copy_file` invocation — the
aggregate boolean returned upward is `true` iff at least one Copy Task under
that sub-tree failed (every failure is printed at its point of detection, so
this is iff the sub-tree printed at least one error line); it is `false`
exactly when every task under the sub-tree, directory listings included,
succeeded. -/
theorem claim5_aggregate_flag_iff_error (source : FPath)
    (stype : Except Msg SrcTree) (dest : FPath) :
    (copyFile source stype dest).1 = true ↔
      (copyFile source stype dest).2.out ≠ [] := by
  cases stype with
  | error e => simp [copyFile, Trace.line]
  | ok t =>
    have h := copyTree_flagSpec source dest t
    simp only [copyFile]
    cases hr : copyTree source t dest with
    | mk res tr =>
      rw [hr] at h
      cases res with
      | ok b =>
        have hb := h.1 b rfl
        simpa [printWrap] using hb
      | error e =>
        simp [printWrap, Trace.append, Trace.line]

/-- C6: the Directory Replicator first creates `dest` with the source's
permission bits (`mkDir dest mode` where `mode` is the source's stat result);
if the source stat or the creation fails, the whole sub-tree fails with no
child dispatched (the trace is empty).  If creation succeeds, the replicator
records the `mkDir`, prints every individual listing error (`failLines`),
ORs the listing-error flag `hasFail` (true iff some listing error was
printed) into the aggregate, and still dispatches every successfully listed
child (`copyEntries` simply skips a failed listing entry and continues with
the rest). -/
theorem claim6_directory_replicator (source dest : FPath) (e : Msg)
    (mode : Nat) (cr lr : Except Msg Unit) (es : EntryList) :
    copyTree source (.directory (.error e) cr lr es) dest =
      (.error e, Trace.nil) ∧
    copyTree source (.directory (.ok mode) (.error e) lr es) dest =
      (.error e, Trace.nil) ∧
    copyTree source (.directory (.ok mode) (.ok ()) (.ok ()) es) dest =
      (.ok (es.hasFail || (copyEntries source dest es).1),
        ((Trace.ofAct (.mkDir dest mode)).append
          (Trace.ofLines es.failLines)).append (copyEntries source dest es).2) ∧
    copyEntries source dest (.consFail e es) = copyEntries source dest es ∧
    (es.hasFail = true ↔ es.failLines ≠ []) :=
  ⟨rfl, rfl, rfl, rfl, EntryList.hasFail_iff es⟩

/-! ## Helper lemmas: the Self-Copy Guard loop -/

theorem exOk_map {ε α β : Type _} (f : α → β) (r : Except ε α) :
    exOk (r.map f) = exOk r := by
  cases r <;> simp [exOk, Except.map]

theorem guardLoop_allOk (pre : FPath)
    (sp : List (FPath × Except String (Nat × Nat))) :
    ∀ (ancs : List (FPath × Except String (Nat × Nat))) (acc : List Msg),
    (∀ a ∈ ancs, exOk a.2 = true) →
    guardLoop pre sp ancs acc = .ok (acc ++ okLines pre sp ancs)
  | [], acc, _ => by simp [guardLoop, okLines]
  | (ancestor, idRes) :: rest, acc, h => by
    cases idRes with
    | error e =>
      have hc := h (ancestor, Except.error e) (by simp)
      simp [exOk] at hc
    | ok id =>
      have hrest := guardLoop_allOk pre sp rest (acc ++ ancLines pre sp ancestor id)
        (fun a ha => h a (by simp [ha]))
      simp [guardLoop, okLines, hrest, List.append_assoc]

theorem guardLoop_abort (pre : FPath)
    (sp : List (FPath × Except String (Nat × Nat))) :
    ∀ (front : List (FPath × Except String (Nat × Nat)))
      (bad : FPath × Except String (Nat × Nat))
      (rest : List (FPath × Except String (Nat × Nat)))
      (acc : List Msg) (eb : String),
    (∀ a ∈ front, exOk a.2 = true) → bad.2 = .error eb →
    guardLoop pre sp (front ++ bad :: rest) acc = .error [Msg.os eb]
  | [], bad, rest, acc, eb, _, hbad => by
    obtain ⟨anc, idRes⟩ := bad
    simp at hbad
    simp [guardLoop, hbad]
  | (ancestor, idRes) :: front, bad, rest, acc, eb, h, hbad => by
    cases idRes with
    | error e =>
      have hc := h (ancestor, Except.error e) (by simp)
      simp [exOk] at hc
    | ok id =>
      have hrest := guardLoop_abort pre sp front bad rest
        (acc ++ ancLines pre sp ancestor id) eb
        (fun a ha => h a (by simp [ha])) hbad
      simp [guardLoop, hrest]

theorem ancestors_length (p : FPath) :
    p.ancestors.length = p.components.length + 1 := by
  simp [FPath.ancestors]

/-- Under a successful `current_dir` and all-successful source stats turned
into pairs, `rejectSelfCopies` on an absolute `dest` reduces to the loop over
its ancestors with the empty display prefix. -/
theorem rejectSelfCopies_absolute (env : Env) (sources : List FPath)
    (dest : FPath) (cd : FPath) (hcd : env.currentDir = .ok cd)
    (habs : dest.absolute = true) :
    rejectSelfCopies env sources dest =
      (match guardLoop emptyFPath
          (sources.map (fun s => (s, (env.symlinkMetadata s).map uniqueId)))
          (dest.ancestors.map (fun a => (a, (env.metadata a).map uniqueId)))
          [] with
       | .error e => .error e
       | .ok errs => if errs.isEmpty then .ok () else .error errs) := by
  simp [rejectSelfCopies, hcd, FPath.isRelative, habs]

theorem mapped_anc_ok (env : Env) (dest : FPath)
    (hanc : ∀ a ∈ dest.ancestors, exOk (env.metadata a) = true) :
    ∀ a ∈ dest.ancestors.map (fun a => (a, (env.metadata a).map uniqueId)),
      exOk a.2 = true := by
  intro a ha
  simp only [List.mem_map] at ha
  obtain ⟨x, hx, rfl⟩ := ha
  simpa [exOk_map] using hanc x hx

/-- When the single source's stat failed, each ancestor iteration re-appends
that same error line. -/
theorem guardLoop_singleErr (pre : FPath) (s : FPath) (e : String) :
    ∀ (ancs : List (FPath × Except String (Nat × Nat))) (acc : List Msg),
    (∀ a ∈ ancs, exOk a.2 = true) →
    guardLoop pre [(s, Except.error e)] ancs acc =
      .ok (acc ++ List.replicate ancs.length (Msg.os e))
  | [], acc, _ => by simp [guardLoop]
  | (ancestor, idRes) :: rest, acc, h => by
    cases idRes with
    | error e2 =>
      have hc := h (ancestor, Except.error e2) (by simp)
      simp [exOk] at hc
    | ok id =>
      have hrest := guardLoop_singleErr pre s e rest
        (acc ++ ancLines pre [(s, Except.error e)] ancestor id)
        (fun a ha => h a (by simp [ha]))
      simp only [ancLines, List.filterMap] at hrest
      simp [guardLoop, ancLines, hrest, List.replicate_succ, List.append_assoc]

/-- C10: with an absolute destination whose ancestors can all be statted, a
source whose no-follow stat fails makes the Self-Copy Guard return a fatal
error consisting of that stat error repeated once per ancestor of the
destination (the inner loop re-appends the per-source error on every
ancestor iteration), not exactly once. -/
theorem claim10_source_stat_error_repeated_per_ancestor (env : Env)
    (s dest : FPath) (e : String) (cd : FPath)
    (hcd : env.currentDir = .ok cd) (habs : dest.absolute = true)
    (hanc : ∀ a ∈ dest.ancestors, exOk (env.metadata a) = true)
    (hs : env.symlinkMetadata s = .error e) :
    rejectSelfCopies env [s] dest =
      .error (List.replicate dest.ancestors.length (Msg.os e)) := by
  rw [rejectSelfCopies_absolute env [s] dest cd hcd habs]
  have hsp : [s].map (fun s2 => (s2, (env.symlinkMetadata s2).map uniqueId)) =
      [(s, Except.error e)] := by
    simp [hs, Except.map]
  rw [hsp,
    guardLoop_singleErr emptyFPath s e
      (dest.ancestors.map (fun a => (a, (env.metadata a).map uniqueId))) []
      (mapped_anc_ok env dest hanc)]
  have hlen : (dest.ancestors.map
      (fun a => (a, (env.metadata a).map uniqueId))).length =
      dest.components.length + 1 := by
    simp [ancestors_length]
  simp [hlen, List.replicate_succ, ancestors_length]

/-- Witness for C10 at a destination with two ancestors: the stat error
appears twice. -/
theorem claim10_witness :
    (envW10.currentDir = .ok ⟨true, []⟩ ∧ dW10.absolute = true ∧
     (∀ a ∈ dW10.ancestors, exOk (envW10.metadata a) = true) ∧
     envW10.symlinkMetadata sW10 = .error eW10) ∧
    rejectSelfCopies envW10 [sW10] dW10 =
      .error (List.replicate dW10.ancestors.length (Msg.os eW10)) :=
  ⟨⟨rfl, rfl, by decide, by decide⟩,
   claim10_source_stat_error_repeated_per_ancestor envW10 sW10 dW10 eW10
     ⟨true, []⟩ rfl rfl (by decide) (by decide)⟩


/-- C4, counterexample: the Guard does short-circuit.  With `dest = /a4/b4`,
the ancestor `/a4` failing to stat, and the source's identity equal to the
root's (so the claim demands a `selfCopy` line for the pair `(s4, /)` plus
one line for the failed ancestor), the Guard instead returns only the failed
ancestor's error: the collected violations are discarded by `let id = id?;`.
-/
theorem claim4_counterexample :
    rejectSelfCopies envC4 [sC4] dC4 = .error [Msg.os eC4] ∧
    (envC4.symlinkMetadata sC4).map uniqueId =
      (envC4.metadata ⟨true, []⟩).map uniqueId ∧
    Msg.selfCopy sC4 (FPath.stripPrefixOr ⟨true, []⟩ emptyFPath) ∉
      [Msg.os eC4] := by
  decide

/-- C4, amended: on an absolute destination (with `current_dir` available),
(1) when every ancestor identity query succeeds the Guard collects, without
short-circuiting, one line per offending (source, ancestor) pair plus one
line per failed source stat — repeated on every ancestor iteration — as
described by `okLines`/`ancLines`, and fails iff that collection is
nonempty; but (2) an ancestor whose identity query fails aborts the Guard
immediately with only that ancestor's error, discarding all collected
violations. -/
theorem claim4_guard_collection_and_abort (env : Env) (sources : List FPath)
    (dest : FPath) (cd : FPath) (hcd : env.currentDir = .ok cd)
    (habs : dest.absolute = true) :
    ((∀ a ∈ dest.ancestors, exOk (env.metadata a) = true) →
      rejectSelfCopies env sources dest =
        (let errs := okLines emptyFPath
            (sources.map (fun s => (s, (env.symlinkMetadata s).map uniqueId)))
            (dest.ancestors.map (fun a => (a, (env.metadata a).map uniqueId)));
         if errs.isEmpty then .ok () else .error errs)) ∧
    (∀ (front : List FPath) (bad : FPath) (rest : List FPath) (eb : String),
      dest.ancestors = front ++ bad :: rest →
      (∀ a ∈ front, exOk (env.metadata a) = true) →
      env.metadata bad = .error eb →
      rejectSelfCopies env sources dest = .error [Msg.os eb]) := by
  constructor
  · intro hanc
    rw [rejectSelfCopies_absolute env sources dest cd hcd habs,
      guardLoop_allOk emptyFPath
        (sources.map (fun s => (s, (env.symlinkMetadata s).map uniqueId)))
        (dest.ancestors.map (fun a => (a, (env.metadata a).map uniqueId))) []
        (mapped_anc_ok env dest hanc)]
    simp
  · intro front bad rest eb hsplit hfront hbad
    rw [rejectSelfCopies_absolute env sources dest cd hcd habs, hsplit]
    rw [List.map_append, List.map_cons]
    rw [guardLoop_abort emptyFPath
      (sources.map (fun s => (s, (env.symlinkMetadata s).map uniqueId)))
      (front.map (fun a => (a, (env.metadata a).map uniqueId)))
      (bad, (env.metadata bad).map uniqueId)
      (rest.map (fun a => (a, (env.metadata a).map uniqueId))) [] eb ?hok ?hb]
    case hok =>
      intro a ha
      simp only [List.mem_map] at ha
      obtain ⟨x, hx, rfl⟩ := ha
      simpa [exOk_map] using hfront x hx
    case hb => simp [hbad, Except.map]

/-- Witness for C4's amended theorem: part (1) at a state where all ancestor
queries succeed and the lone source's identity matches the root's; part (2)
at the counterexample state, whose Guard aborts on `/a4`. -/
theorem claim4_witness :
    ((∀ a ∈ d4b.ancestors, exOk (env4b.metadata a) = true) ∧
      rejectSelfCopies env4b [s4b] d4b =
        (let errs := okLines emptyFPath
            ([s4b].map (fun s => (s, (env4b.symlinkMetadata s).map uniqueId)))
            (d4b.ancestors.map (fun a => (a, (env4b.metadata a).map uniqueId)));
         if errs.isEmpty then .ok () else .error errs)) ∧
    (dC4.ancestors = [dC4] ++ (⟨true, ["a4"]⟩ : FPath) :: [⟨true, []⟩] ∧
     envC4.metadata ⟨true, ["a4"]⟩ = .error eC4 ∧
     rejectSelfCopies envC4 [sC4] dC4 = .error [Msg.os eC4]) :=
  ⟨⟨by decide,
    (claim4_guard_collection_and_abort env4b [s4b] d4b ⟨true, []⟩ rfl rfl).1
      (by decide)⟩,
   ⟨by decide, by decide,
    (claim4_guard_collection_and_abort envC4 [sC4] dC4 ⟨true, []⟩ rfl rfl).2
      [dC4] ⟨true, ["a4"]⟩ [⟨true, []⟩] eC4 (by decide) (by decide)
      (by decide)⟩⟩


theorem Trace.nil_append (t : Trace) : Trace.nil.append t = t := rfl

/-- C1: `copy_single` compares only the inode numbers (`lib.rs` 213), not
`unique_id`'s (device, inode) pair: with distinct filesystem identities that
merely share inode 42 across devices 1 and 2, the fatal
overwrite-file-with-itself error fires anyway, contradicting the spec's
definition of filesystem identity. -/
theorem claim1_overwrite_check_ignores_device :
    copySingle envC1 sC1 dC1 = .fatal [Msg.overwriteSelf sC1 dC1] ∧
    (envC1.symlinkMetadata sC1).map uniqueId ≠
      (envC1.symlinkMetadata dC1).map uniqueId := by
  decide

/-- C2, counterexample: in the spec's concrete scenario — two source
directories with distinct names that each contain a child `shared.txt`,
fanned into an existing directory — the Name-Collision Checker sees only the
top-level names `dir1`/`dir2`, so nothing collides: the copy succeeds,
`dest` receives both subtrees, and the exit status is 0, not the claimed
fatal collision with status 1. -/
theorem claim2_counterexample :
    fcpRun envC2 [dir1C2, dir2C2, destC2] =
      .done false
        ⟨[],
         [Act.mkDir ⟨true, ["dest", "dir1"]⟩ 493,
          Act.copyRegular ⟨true, ["dir1", "shared.txt"]⟩
            ⟨true, ["dest", "dir1", "shared.txt"]⟩,
          Act.mkDir ⟨true, ["dest", "dir2"]⟩ 493,
          Act.copyRegular ⟨true, ["dir2", "shared.txt"]⟩
            ⟨true, ["dest", "dir2", "shared.txt"]⟩]⟩ ∧
    exitCode (fcpRun envC2 [dir1C2, dir2C2, destC2]) = 0 := by
  decide

/-- C3, counterexample: a failure to stat the source in single-source mode is
not recoverable — `copy_single` (`lib.rs` 210) calls `fatal` on it, so the
whole invocation terminates fatally with status 1. -/
theorem claim3_counterexample :
    fcpRun envC3 [sC3, dC3] = .fatal [Msg.os eC3] ∧
    exitCode (fcpRun envC3 [sC3, dC3]) = 1 := by
  decide

/-- C8, counterexample: with `dest` an existing directory but a source whose
no-follow stat fails, `copy_single` dies with the stat error printed once,
while `copy_into([source], dest)` reaches the Self-Copy Guard, which repeats
that stat error once per ancestor of `dest` — different fatal output, so the
two are not equivalent. -/
theorem claim8_counterexample :
    copySingle envC8 sC8 dC8 = .fatal [Msg.os eC8] ∧
    copyInto envC8 [sC8] dC8 = .fatal [Msg.os eC8, Msg.os eC8] ∧
    copySingle envC8 sC8 dC8 ≠ copyInto envC8 [sC8] dC8 := by
  decide

/-- C7, counterexample: when a source with no final component coexists with
two sources whose final components collide, `file_names` short-circuits on
the no-file-name error (`collect::<Result<..>>`), reporting only the first
nameless source and listing no colliding group at all. -/
theorem claim7_counterexample :
    pa7.fileName = pb7.fileName ∧
    fileNames [rootP7, pa7, pb7] = .error [Msg.noFileName rootP7] ∧
    Msg.collision [pa7, pb7] ∉ [Msg.noFileName rootP7] := by
  decide

/-- C3, amended: a stat failure during per-task copy execution is
recoverable — (1) in fan-in mode, once the pre-flight checks pass, a
source whose following `file_type` query fails has the error printed,
contributes `true` to the aggregate, and does not prevent the sibling
source from being processed (its whole trace still happens); but (2) the
pre-flight no-follow stat of the source in single-source mode is fatal for
the whole invocation. -/
theorem claim3_stat_failure_severity :
    (∀ (env : Env) (s1 s2 dest : FPath) (m : Meta) (n1 n2 : String) (e : Msg),
      env.metadata dest = .ok m → m.isDir = true →
      rejectSelfCopies env [s1, s2] dest = .ok () →
      fileNames [s1, s2] = .ok [n1, n2] →
      env.tree s1 = .error e →
      copyInto env [s1, s2] dest =
        .done true ((Trace.line e).append
          (copyFile s2 (env.tree s2) (dest.joinName n2)).2)) ∧
    (∀ (env : Env) (s dest : FPath) (e : String),
      env.symlinkMetadata s = .error e →
      copySingle env s dest = .fatal [Msg.os e]) := by
  constructor
  · intro env s1 s2 dest m n1 n2 e h1 h2 h3 h4 h5
    simp [copyInto, h1, h2, h3, h4, h5, copyFile, Trace.nil_append]
  · intro env s dest e h
    simp [copySingle, h]

/-- Witness for C3's amended theorem: part (1) at a fan-in state whose first
source's type query fails, part (2) at the all-failing stat state. -/
theorem claim3_witness :
    (env3w.metadata d3w = .ok ⟨1, 7, 420, true⟩ ∧
     (⟨1, 7, 420, true⟩ : Meta).isDir = true ∧
     rejectSelfCopies env3w [s3a, s3b] d3w = .ok () ∧
     fileNames [s3a, s3b] = .ok ["fa", "fb"] ∧
     env3w.tree s3a = .error m3w ∧
     copyInto env3w [s3a, s3b] d3w =
       .done true ((Trace.line m3w).append
         (copyFile s3b (env3w.tree s3b) (d3w.joinName "fb")).2)) ∧
    (envC3.symlinkMetadata sC3 = .error eC3 ∧
     copySingle envC3 sC3 dC3 = .fatal [Msg.os eC3]) :=
  ⟨⟨by decide, by decide, by decide, by decide, rfl,
    claim3_stat_failure_severity.1 env3w s3a s3b d3w ⟨1, 7, 420, true⟩
      "fa" "fb" m3w (by decide) (by decide) (by decide) (by decide)
      rfl⟩,
   ⟨by decide,
    claim3_stat_failure_severity.2 envC3 sC3 dC3 eC3 (by decide)⟩⟩

/-- C8, amended: whenever the pre-flight no-follow stat of the source
succeeds and `dest` stats as a directory, `copy_single(source, dest)` is
literally `copy_into([source], dest)`. -/
theorem claim8_single_delegates_to_into (env : Env) (s dest : FPath)
    (sm m : Meta) (h1 : env.symlinkMetadata s = .ok sm)
    (h2 : env.metadata dest = .ok m) (h3 : m.isDir = true) :
    copySingle env s dest = copyInto env [s] dest := by
  simp [copySingle, h1, h2, h3]

/-- Witness for C8's amended theorem at an all-successful state. -/
theorem claim8_witness :
    (envW8.symlinkMetadata sW8 = .ok ⟨1, 2, 420, false⟩ ∧
     envW8.metadata dW8 = .ok ⟨1, 7, 420, true⟩ ∧
     (⟨1, 7, 420, true⟩ : Meta).isDir = true) ∧
    copySingle envW8 sW8 dW8 = copyInto envW8 [sW8] dW8 :=
  ⟨⟨by decide, by decide, by decide⟩,
   claim8_single_delegates_to_into envW8 sW8 dW8 ⟨1, 2, 420, false⟩
     ⟨1, 7, 420, true⟩ (by decide) (by decide) (by decide)⟩

/-- C2, amended: the Name-Collision Checker compares the sources' own final
path components, so the fan-in fails fatally — before any copy action, hence
with `dest` untouched and exit status 1 — exactly when the sources
themselves share a final component (e.g. `a/shared.txt` and `b/shared.txt`),
not when their children do. -/
theorem claim2_collision_on_shared_final_component (env : Env)
    (p1 p2 dest : FPath) (m : Meta) (n : String)
    (h1 : env.metadata dest = .ok m) (h2 : m.isDir = true)
    (h3 : rejectSelfCopies env [p1, p2] dest = .ok ())
    (h4 : p1.fileName = some n) (h5 : p2.fileName = some n) :
    fcpRun env [p1, p2, dest] = .fatal [Msg.collision [p1, p2]] ∧
    exitCode (fcpRun env [p1, p2, dest]) = 1 := by
  have hstep : fcpRun env [p1, p2, dest] = copyInto env [p1, p2] dest := rfl
  have hd : ([n, n] : List String).dedup = [n] := by
    rw [List.dedup_cons_of_mem (by simp), List.dedup_cons_of_not_mem (by simp),
      List.dedup_nil]
  have hnames : fileNames [p1, p2] = .error [Msg.collision [p1, p2]] := by
    simp [fileNames, mapNames, h4, h5, hd, List.filter]
  have hres : copyInto env [p1, p2] dest = .fatal [Msg.collision [p1, p2]] := by
    simp [copyInto, h1, h2, h3, hnames]
  rw [hstep, hres]
  exact ⟨rfl, rfl⟩

/-- Witness for C2's amended theorem: two sources both ending in
`shared.txt` fanned into an existing directory. -/
theorem claim2_witness :
    (envW2.metadata dW2 = .ok ⟨1, 10, 493, true⟩ ∧
     (⟨1, 10, 493, true⟩ : Meta).isDir = true ∧
     rejectSelfCopies envW2 [p1W2, p2W2] dW2 = .ok () ∧
     p1W2.fileName = some shName ∧ p2W2.fileName = some shName) ∧
    (fcpRun envW2 [p1W2, p2W2, dW2] = .fatal [Msg.collision [p1W2, p2W2]] ∧
     exitCode (fcpRun envW2 [p1W2, p2W2, dW2]) = 1) :=
  ⟨⟨by decide, by decide, by decide, by decide, by decide⟩,
   claim2_collision_on_shared_final_component envW2 p1W2 p2W2 dW2
     ⟨1, 10, 493, true⟩ shName (by decide) (by decide) (by decide)
     (by decide) (by decide)⟩

theorem mapNames_find_none : ∀ (sources : List FPath) (s0 : FPath),
    sources.find? (fun s => s.fileName.isNone) = some s0 →
    mapNames sources = .error [Msg.noFileName s0]
  | [], s0 => by simp
  | s :: rest, s0 => by
    intro h
    cases hf : s.fileName with
    | none =>
      rw [List.find?_cons_of_pos _ (by simp [hf])] at h
      injection h with h
      subst h
      simp [mapNames, hf]
    | some n =>
      rw [List.find?_cons_of_neg _ (by simp [hf])] at h
      have hrest := mapNames_find_none rest s0 h
      simp [mapNames, hf, hrest]

theorem mapNames_ok_of_all_some : ∀ (sources : List FPath),
    (∀ s ∈ sources, (s.fileName).isSome = true) →
    ∃ ns, mapNames sources = .ok ns
  | [], _ => ⟨[], rfl⟩
  | s :: rest, h => by
    obtain ⟨n, hn⟩ := Option.isSome_iff_exists.mp (h s (by simp))
    obtain ⟨ns, hns⟩ := mapNames_ok_of_all_some rest (fun x hx => h x (by simp [hx]))
    exact ⟨n :: ns, by simp [mapNames, hn, hns]⟩

theorem mapNames_mem_name : ∀ (sources : List FPath) (ns : List String)
    (s : FPath) (n : String), mapNames sources = .ok ns → s ∈ sources →
    s.fileName = some n → n ∈ ns
  | [], ns, s, n => by simp
  | x :: rest, ns, s, n => by
    intro hok hmem hfn
    cases hx : x.fileName with
    | none => simp [mapNames, hx] at hok
    | some k =>
      cases hrest : mapNames rest with
      | error e => simp [mapNames, hx, hrest] at hok
      | ok ms =>
        simp [mapNames, hx, hrest] at hok
        subst hok
        rcases List.mem_cons.mp hmem with rfl | hmem2
        · rw [hx] at hfn
          injection hfn with hfn
          simp [hfn]
        · exact List.mem_cons_of_mem _
            (mapNames_mem_name rest ms s n hrest hmem2 hfn)

/-- C7, amended: (1) whenever some source has no final path component, the
checker fails with the distinct no-file-name error naming the first such
source (short-circuiting before collision detection); (2) whenever every
source has a final component and two or more share one, the checker fails
and its error lists every colliding group — in particular the full group of
sources sharing any over-shared name `n` appears. -/
theorem claim7_name_collision_checker :
    (∀ (sources : List FPath) (s0 : FPath),
      sources.find? (fun s => s.fileName.isNone) = some s0 →
      fileNames sources = .error [Msg.noFileName s0]) ∧
    (∀ (sources : List FPath) (n : String),
      (∀ s ∈ sources, (s.fileName).isSome = true) →
      1 < (sources.filter (fun s => s.fileName = some n)).length →
      ∃ errs, fileNames sources = .error errs ∧
        Msg.collision (sources.filter (fun s => s.fileName = some n)) ∈ errs) := by
  constructor
  · intro sources s0 h
    simp [fileNames, mapNames_find_none sources s0 h]
  · intro sources n hall hlen
    obtain ⟨ns, hns⟩ := mapNames_ok_of_all_some sources hall
    have hne : sources.filter (fun s => s.fileName = some n) ≠ [] := by
      intro hnil
      rw [hnil] at hlen
      simp at hlen
    obtain ⟨s, hs⟩ := List.exists_mem_of_ne_nil _ hne
    have hsrc : s ∈ sources := (List.mem_filter.mp hs).1
    have hsn : s.fileName = some n := by
      have h2 := (List.mem_filter.mp hs).2
      simpa using h2
    have hmemn : n ∈ ns := mapNames_mem_name sources ns s n hns hsrc hsn
    refine ⟨ns.dedup.filterMap (fun n2 =>
        let group := sources.filter (fun s2 => s2.fileName = some n2)
        if 1 < group.length then some (Msg.collision group) else none),
      ?_, ?_⟩
    · have herr : Msg.collision (sources.filter (fun s2 => s2.fileName = some n)) ∈
          ns.dedup.filterMap (fun n2 =>
            let group := sources.filter (fun s2 => s2.fileName = some n2)
            if 1 < group.length then some (Msg.collision group) else none) :=
        List.mem_filterMap.mpr ⟨n, List.mem_dedup.mpr hmemn, by
          simp only []
          rw [if_pos hlen]⟩
      have hne2 := List.ne_nil_of_mem herr
      simp only [fileNames, hns]
      cases herrs : ns.dedup.filterMap (fun n2 =>
          let group := sources.filter (fun s2 => s2.fileName = some n2)
          if 1 < group.length then some (Msg.collision group) else none) with
      | nil => exact absurd herrs hne2
      | cons a l => rfl
    · exact List.mem_filterMap.mpr ⟨n, List.mem_dedup.mpr hmemn, by
        simp only []
        rw [if_pos hlen]⟩

/-- Witness for C7's amended theorem: part (1) on a root-path source, part
(2) on two sources both named `x`. -/
theorem claim7_witness :
    (([rootP7] : List FPath).find? (fun s => s.fileName.isNone) =
        some rootP7 ∧
     fileNames [rootP7] = .error [Msg.noFileName rootP7]) ∧
    ((∀ s ∈ ([pa7, pb7] : List FPath), (s.fileName).isSome = true) ∧
     1 < (([pa7, pb7] : List FPath).filter
        (fun s => s.fileName = some xName)).length ∧
     ∃ errs, fileNames [pa7, pb7] = .error errs ∧
       Msg.collision (([pa7, pb7] : List FPath).filter
         (fun s => s.fileName = some xName)) ∈ errs) :=
  ⟨⟨by decide, claim7_name_collision_checker.1 [rootP7] rootP7 (by decide)⟩,
   ⟨by decide, by decide,
    claim7_name_collision_checker.2 [pa7, pb7] xName (by decide) (by decide)⟩⟩

/-- The regular-file path through `copy_single` against a state-derived
oracle: source regular, destination an existing non-directory with a
different inode — the overwrite guard passes and the byte copy is the one
action performed, with nothing printed and the aggregate false. -/
theorem copySingle_state_regular (st : FsState) (A B : FPath) (a b : FileObj)
    (hA : st A = some a) (hka : a.kind = FileKind.regular)
    (hB : st B = some b) (hkb : b.kind ≠ FileKind.directory)
    (hino : a.ino ≠ b.ino) :
    copySingle (envOfState st) A B =
      .done false ⟨[], [Act.copyRegular A B]⟩ := by
  simp [copySingle, envOfState, stateMetadata, stateTree, hA, hB, hka, hkb,
    hino, copyFile, copyTree, printWrap, Trace.ofAct]

/-- C9: a single regular-file copy `A → B` onto an existing regular
destination with a different inode succeeds, overwrites `B` with `A`'s
current content and mode while keeping `B`'s identity, and is idempotent:
running it again from the resulting state performs the identical action and
leaves the state fixed. -/
theorem claim9_single_copy_idempotent (st : FsState) (A B : FPath)
    (a b : FileObj)
    (hA : st A = some a) (hka : a.kind = FileKind.regular)
    (hB : st B = some b) (hkb : b.kind ≠ FileKind.directory)
    (hino : a.ino ≠ b.ino) :
    copySingle (envOfState st) A B =
      .done false ⟨[], [Act.copyRegular A B]⟩ ∧
    applyActs st [Act.copyRegular A B] B =
      some ⟨b.dev, b.ino, a.mode, FileKind.regular, a.content⟩ ∧
    copySingle (envOfState (applyActs st [Act.copyRegular A B])) A B =
      .done false ⟨[], [Act.copyRegular A B]⟩ ∧
    applyActs (applyActs st [Act.copyRegular A B]) [Act.copyRegular A B] =
      applyActs st [Act.copyRegular A B] := by
  have hAB : A ≠ B := by
    intro hEq
    rw [hEq, hB] at hA
    exact hino (congrArg FileObj.ino (Option.some.inj hA)).symm
  have h1 : applyActs st [Act.copyRegular A B] A = some a := by
    simp [applyActs, List.foldl, applyAct, hAB, hA]
  have h2 : applyActs st [Act.copyRegular A B] B =
      some ⟨b.dev, b.ino, a.mode, FileKind.regular, a.content⟩ := by
    simp [applyActs, List.foldl, applyAct, hA, hB]
  refine ⟨copySingle_state_regular st A B a b hA hka hB hkb hino, h2, ?_, ?_⟩
  · exact copySingle_state_regular (applyActs st [Act.copyRegular A B]) A B a
      ⟨b.dev, b.ino, a.mode, FileKind.regular, a.content⟩ h1 hka h2
      (by simp) hino
  · funext p
    by_cases hp : p = B
    · rw [hp]
      show applyAct (applyActs st [Act.copyRegular A B]) (Act.copyRegular A B) B =
        applyActs st [Act.copyRegular A B] B
      simp [applyAct, h1, h2]
    · show applyAct (applyActs st [Act.copyRegular A B]) (Act.copyRegular A B) p =
        applyActs st [Act.copyRegular A B] p
      simp [applyAct, hp]

/-- Witness for C9 on two concrete regular files. -/
theorem claim9_witness :
    (st9 pA9 = some objA9 ∧ objA9.kind = FileKind.regular ∧
     st9 pB9 = some objB9 ∧ objB9.kind ≠ FileKind.directory ∧
     objA9.ino ≠ objB9.ino) ∧
    (copySingle (envOfState st9) pA9 pB9 =
        .done false ⟨[], [Act.copyRegular pA9 pB9]⟩ ∧
     applyActs st9 [Act.copyRegular pA9 pB9] pB9 =
        some ⟨objB9.dev, objB9.ino, objA9.mode, FileKind.regular,
          objA9.content⟩ ∧
     copySingle (envOfState (applyActs st9 [Act.copyRegular pA9 pB9])) pA9 pB9 =
        .done false ⟨[], [Act.copyRegular pA9 pB9]⟩ ∧
     applyActs (applyActs st9 [Act.copyRegular pA9 pB9])
        [Act.copyRegular pA9 pB9] =
       applyActs st9 [Act.copyRegular pA9 pB9]) :=
  ⟨⟨by decide, by decide, by decide, by decide, by decide⟩,
   claim9_single_copy_idempotent st9 pA9 pB9 objA9 objB9 (by decide)
     (by decide) (by decide) (by decide) (by decide)⟩
